import Mathlib

/-!
Verification development for the GoPro telemetry conversion pipeline
(convertTelemetry.py): a shallow embedding of the telemetry collection,
resampling, gravity-calibration, offset-correction and GPS-mask stages,
together with theorems settling the specification claims.

Python values are modelled exactly where the claims depend on them:
floats are rationals (all concrete inputs used below are exactly
representable in binary floating point, so rational arithmetic agrees
with the Python evaluation), exceptions are explicit error values, and
Python dictionaries are insertion-ordered association lists with
overwrite-on-repeated-key semantics.
-/

namespace GoPro

/-- Python exception kinds relevant to convertTelemetry.py. -/
inductive PyErr where
  | typeError
  | keyError
  | indexError
  | valueError
  | zeroDivisionError
  | attributeError
deriving DecidableEq

/-- Decidable equality of modelled call results. -/
instance {ε α : Type} [DecidableEq ε] [DecidableEq α] : DecidableEq (Except ε α) :=
  fun x y =>
    match x, y with
    | .ok a, .ok b =>
      if h : a = b then isTrue (congrArg Except.ok h)
      else isFalse (fun he => h (Except.ok.inj he))
    | .error a, .error b =>
      if h : a = b then isTrue (congrArg Except.error h)
      else isFalse (fun he => h (Except.error.inj he))
    | .ok _, .error _ => isFalse (fun he => Except.noConfusion he)
    | .error _, .ok _ => isFalse (fun he => Except.noConfusion he)

/-- Python dict assignment `d[k] = v`: overwrite the binding in place if the
key is present, otherwise append it (insertion order preserved). -/
def pyDictSet {α β : Type} [DecidableEq α] : List (α × β) → α → β → List (α × β)
  | [], k, v => [(k, v)]
  | (a, b) :: t, k, v => if a = k then (k, v) :: t else (a, b) :: pyDictSet t k v

/-- Python `float(s)` on plain decimal literals: optional sign, an integer
part and/or a fractional part (at least one digit overall).  Exponent forms
and special values are not used by any input considered here. -/
def pyFloat (s : String) : Option ℚ :=
  let cs := s.data
  let (sign, rest) :=
    match cs with
    | '-' :: r => ((-1 : ℚ), r)
    | '+' :: r => ((1 : ℚ), r)
    | r => ((1 : ℚ), r)
  let (intPart, dotRest) := rest.span (fun c => c ≠ '.')
  let fracPart :=
    match dotRest with
    | [] => some []
    | '.' :: r => if r.all (fun c => c ≠ '.') then some r else none
    | _ => none
  match fracPart with
  | none => none
  | some frac =>
    if intPart.all Char.isDigit ∧ frac.all Char.isDigit ∧
        (intPart ≠ [] ∨ frac ≠ []) then
      let iv : ℕ := intPart.foldl (fun n c => n * 10 + (c.toNat - 48)) 0
      let fv : ℕ := frac.foldl (fun n c => n * 10 + (c.toNat - 48)) 0
      some (sign * ((iv : ℚ) + (fv : ℚ) / ((10 : ℚ) ^ frac.length)))
    else none

/-- Python `int(x)` on a float: truncation toward zero. -/
def pyTrunc (q : ℚ) : ℤ := Int.tdiv q.num (q.den : ℤ)

/-- A Python `slice(start, stop)` with unit step. -/
structure PySlice where
  start : ℤ
  stop : Option ℤ
deriving DecidableEq

/-- Resolve one Python slice endpoint against a sequence length. -/
def pySliceResolve (n : ℕ) (i : ℤ) : ℕ :=
  if i < 0 then ((n : ℤ) + i).toNat.min n else i.toNat.min n

/-- Python `xs[sl]` for a unit-step slice (never raises). -/
def pySliceList {α : Type} (xs : List α) (sl : PySlice) : List α :=
  let n := xs.length
  let lo := pySliceResolve n sl.start
  let hi := match sl.stop with
    | none => n
    | some j => pySliceResolve n j
  (xs.drop lo).take (hi - lo)

/-- Python `s.partition(sep)` for a one-character separator: split at the
first occurrence; the middle component records whether it was found. -/
def pyPartition (s : String) (sep : Char) : String × Bool × String :=
  match s.data.span (fun c => c ≠ sep) with
  | (before, []) => (⟨before⟩, false, "")
  | (before, _ :: after) => (⟨before⟩, true, ⟨after⟩)

/-- Python `s.split()` with no argument: split on whitespace runs, dropping
empty pieces. -/
def pySplitWS (s : String) : List String :=
  (s.split Char.isWhitespace).filter (fun p => p ≠ "")

/-! ## Orientation mapper (class Orientation, convertTelemetry.py 132-198) -/

/-- The characters of `s.lower()`. -/
def lowerChars (s : String) : List Char := s.data.map Char.toLower

/-- Python `c.lower() in strAxes.lower()` for a single character. -/
def charInAxes (strAxes : String) (c : Char) : Bool :=
  decide (Char.toLower c ∈ lowerChars strAxes)

/-- Python `all([i in strAxes.lower() for i in strIn.lower()])`. -/
def allInAxes (strIn strAxes : String) : Bool :=
  strIn.data.all (charInAxes strAxes)

/-- Build `_dctAxes = {c.lower(): i for i, c in enumerate(strAxes)}`. -/
def buildAxesGo : List Char → ℕ → List (Char × ℕ) → List (Char × ℕ)
  | [], _, d => d
  | c :: cs, i, d => buildAxesGo cs (i + 1) (pyDictSet d (Char.toLower c) i)

/-- The `_dctAxes` dictionary of an Orientation. -/
def buildAxes (strAxes : String) : List (Char × ℕ) := buildAxesGo strAxes.data 0 []

/-- The pairs `(_dctAxes[c.lower()], i)` of the `_dctMap` comprehension, in
evaluation order; a missing key raises `KeyError` exactly as in Python. -/
def buildOriPairs (dctAxes : List (Char × ℕ)) : List Char → ℕ →
    Except PyErr (List (ℕ × ℕ))
  | [], _ => .ok []
  | c :: cs, i =>
    match dctAxes.lookup (Char.toLower c) with
    | none => .error .keyError
    | some k => (buildOriPairs dctAxes cs (i + 1)).map (fun ps => (k, i) :: ps)

/-- The pairs of the `_dctSign` comprehension: key `_dctAxes[c.lower()]`,
value `-1` for a lower-case letter and `+1` otherwise. -/
def buildSignPairs (dctAxes : List (Char × ℕ)) : List Char →
    Except PyErr (List (ℕ × ℤ))
  | [] => .ok []
  | c :: cs =>
    match dctAxes.lookup (Char.toLower c) with
    | none => .error .keyError
    | some k =>
      (buildSignPairs dctAxes cs).map
        (fun ps => (k, if c.isLower then (-1 : ℤ) else 1) :: ps)

/-- Assemble a comprehension's pairs into a Python dict (later pairs
overwrite earlier ones with the same key). -/
def pairsToDict {β : Type} (ps : List (ℕ × β)) : List (ℕ × β) :=
  ps.foldl (fun d p => pyDictSet d p.1 p.2) []

/-- State of a constructed Orientation instance. -/
structure Orientation where
  strAxes : String
  dctAxes : List (Char × ℕ)
  strDefault : String
  strOrientation : String
  dctMap : List (ℕ × ℕ)
  dctSign : Option (List (ℕ × ℤ))
deriving DecidableEq

/-- `Orientation.__init__`, faithful to the source: the default is replaced
by the axes string whenever its length differs from the axes string or some
input character falls outside the axes alphabet (case-insensitively); the
input is accepted whenever it has the axes length and all its characters lie
in the alphabet (no permutation check); dictionary construction raises
`KeyError` when an orientation character is missing from `_dctAxes`. -/
def Orientation.init (strIn strAxes strDefault : String) (boolParseSign : Bool) :
    Except PyErr Orientation :=
  let dctAxes := buildAxes strAxes
  let strDefault1 :=
    if strDefault.length != strAxes.length || !allInAxes strIn strAxes then strAxes
    else strDefault
  let strOri :=
    if strIn.length == strAxes.length && allInAxes strIn strAxes then strIn
    else strDefault1
  match buildOriPairs dctAxes strOri.data 0 with
  | .error e => .error e
  | .ok mapPairs =>
    if boolParseSign then
      match buildSignPairs dctAxes strOri.data with
      | .error e => .error e
      | .ok signPairs =>
        .ok ⟨strAxes, dctAxes, strDefault1, strOri, pairsToDict mapPairs,
          some (pairsToDict signPairs)⟩
    else
      .ok ⟨strAxes, dctAxes, strDefault1, strOri, pairsToDict mapPairs, none⟩

/-- One step of the `mangle` list comprehension, for the remaining indices
`i` of `range(len(_dctMap))`; evaluation is left to right and the first
failed dictionary or list access raises. -/
def mangleGo (o : Orientation) (v : List ℚ) : List ℕ → Except PyErr (List ℚ)
  | [] => .ok []
  | i :: rest =>
    match o.dctSign with
    | none =>
      match o.dctMap.lookup i with
      | none => .error .keyError
      | some mi =>
        match v.get? mi with
        | none => .error .indexError
        | some x => (mangleGo o v rest).map (fun t => x :: t)
    | some sgn =>
      match sgn.lookup i with
      | none => .error .keyError
      | some s =>
        match o.dctMap.lookup i with
        | none => .error .keyError
        | some mi =>
          match v.get? mi with
          | none => .error .indexError
          | some x => (mangleGo o v rest).map (fun t => ((s : ℚ) * x) :: t)

/-- `Orientation.mangle`: reorder (and possibly sign-flip) the components of
a vector; raises `IndexError` when the vector is shorter than the mapping
requires. -/
def Orientation.mangle (o : Orientation) (v : List ℚ) : Except PyErr (List ℚ) :=
  mangleGo o v (List.range o.dctMap.length)

/-- Fallback used to extract an Orientation from a constructor that is known
to succeed (the module-level constructions in main). -/
def oriDummy : Orientation := ⟨"", [], "", "", [], none⟩

/-- Extract the Orientation from a successful construction. -/
def exceptOri (e : Except PyErr Orientation) : Orientation :=
  match e with
  | .ok o => o
  | .error _ => oriDummy

/-- The per-block input orientation for a block without `InputOrientation`
(default alphabet mapping `XYZ`, identity, all signs positive). -/
def oriXYZ : Orientation := exceptOri (Orientation.init "" "xyz" "XYZ" true)

/-- `Orientation(args.grav, "xyz", DEFAULT_ARG_GRAV)` at the default
argument `XZY`. -/
def oriGravDef : Orientation := exceptOri (Orientation.init "XZY" "xyz" "XZY" true)

/-- `Orientation(args.quat, "xyzr", DEFAULT_ARG_QUAT)` at the default
argument `RXZY`. -/
def oriQuatDef : Orientation := exceptOri (Orientation.init "RXZY" "xyzr" "RXZY" true)

/-! ## Irregular sample collector (convertTelemetry.py 201-254, 427-487) -/

/-- JSON values of the input document, as far as the collector inspects
them: numbers, strings and objects. -/
inductive JVal where
  | num (q : ℚ)
  | str (s : String)
  | obj (fields : List (String × JVal))

/-- A collected channel value: a scalar or a vector of floats. -/
inductive CVal where
  | scalar (q : ℚ)
  | vec (v : List ℚ)
deriving DecidableEq

/-- The mutable output dictionary `dctOut`: channel name to list of
(timestamp, value) samples.  The timestamp slot holds whatever Python value
was stored (a bad `SampleTime` is stored as-is). -/
abbrev Dct : Type := List (String × List (JVal × CVal))

/-- `dctOut.setdefault(key, []).append(x)`. -/
def dctAppend (d : Dct) (key : String) (x : JVal × CVal) : Dct :=
  match d with
  | [] => [(key, [x])]
  | (k, l) :: t => if k = key then (k, l ++ [x]) :: t else (k, l) :: dctAppend t key x

/-- Number of samples collected for a channel. -/
def channelLen (d : Dct) (key : String) : ℕ :=
  (((d : List (String × List (JVal × CVal))).lookup key).getD []).length

/-- Python `+` on the modelled values: numbers add, strings concatenate, any
mixed combination raises `TypeError` (in particular a string timestamp plus
a float step). -/
def jAdd : JVal → JVal → Except PyErr JVal
  | .num a, .num b => .ok (.num (a + b))
  | .str a, .str b => .ok (.str (a ++ b))
  | _, _ => .error .typeError

/-- Python `str(x)`.  Exact on strings, which are the only payloads the
theorems below exercise; the renderings of numbers and objects are
approximations of `repr`. -/
def pyStrOfJVal : JVal → String
  | .str s => s
  | .num q => toString q.num
  | .obj _ => "{}"

/-- `lstInputRaw[intIdx:intIdx+intDim]` groups for `range(0, len, dim)` with
positive `dim = d + 1`: chunks of size `dim`, the last possibly shorter. -/
def chunkedPos (d : ℕ) : List ℚ → List (List ℚ)
  | [] => []
  | x :: xs => ((x :: xs).take (d + 1)) :: chunkedPos d (xs.drop d)
termination_by l => l.length
decreasing_by
  simp only [List.length_cons]
  have h := List.length_drop d xs
  omega

/-- The body of the sample loop in `appendTypedListFromString`: mangle each
group, append it with its timestamp, then advance the timestamp by `dt`
(which raises `TypeError` if the timestamp is not a number); the dictionary
mutations performed before an exception persist. -/
def runChunks (ori : Orientation) (key : String) :
    List (List ℚ) → JVal → ℚ → Dct → Dct × Option PyErr
  | [], _, _, dct => (dct, none)
  | c :: cs, t, dt, dct =>
    match ori.mangle c with
    | .error e => (dct, some e)
    | .ok v =>
      let dct1 := dctAppend dct key (t, .vec v)
      match jAdd t (.num dt) with
      | .error e => (dct1, some e)
      | .ok t1 => runChunks ori key cs t1 dt dct1

/-- `appendTypedListFromString` (convertTelemetry.py 201-234).  The try
block covers the token conversion and the spacing computation
`dt = fltDuration * intDim / len(lstInputRaw)`; a conversion failure, a
non-numeric duration or a zero token count is caught and the function
returns without touching the dictionary.  The sample loop itself is not
protected: a `mangle` failure (short final group) or a non-numeric
timestamp raises out of the function, after the preceding appends. -/
def appendTypedListFromString (strIn : JVal) (conv : String → Option ℚ)
    (intDim : ℕ) (ori : Orientation) (fltTimestamp fltDuration : JVal)
    (dct : Dct) (key : String) : Dct × Option PyErr :=
  match (pySplitWS (pyStrOfJVal strIn)).mapM conv with
  | none => (dct, none)
  | some l =>
    match fltDuration with
    | .num q =>
      if l.length = 0 then (dct, none)
      else
        match intDim with
        | 0 => (dct, some .valueError)
        | d + 1 =>
          runChunks ori key (chunkedPos d l) fltTimestamp
            (q * (d + 1 : ℕ) / (l.length : ℚ)) dct
    | _ => (dct, none)

/-- `appendValueFromDict` (convertTelemetry.py 237-254): the whole body is
inside try/except, so a missing key or failed conversion silently skips. -/
def appendValueFromDict (dctIn : List (String × JVal)) (strKeyIn : String)
    (conv : JVal → Option ℚ) (fltTimestamp : JVal) (dct : Dct)
    (strKeyOut : String) : Dct :=
  match dctIn.lookup strKeyIn with
  | none => dct
  | some v =>
    match conv v with
    | none => dct
    | some q => dctAppend dct strKeyOut (fltTimestamp, .scalar q)

/-- Python `float(x)` on a JSON value: numbers pass through, strings are
parsed, anything else raises (and is caught by the caller). -/
def convFloat : JVal → Option ℚ
  | .num q => some q
  | .str s => pyFloat s
  | .obj _ => none

/-- Value of an all-digit string. -/
def digitsVal (cs : List Char) : Option ℕ :=
  if cs ≠ [] ∧ cs.all Char.isDigit then
    some (cs.foldl (fun n c => n * 10 + (c.toNat - 48)) 0)
  else none

/-- Days between 1970-01-01 and a Gregorian date (Hinnant's civil-days
algorithm), for years from 1970 on. -/
def civilDays (y m d : ℕ) : ℕ :=
  let y1 := if m ≤ 2 then y - 1 else y
  let era := y1 / 400
  let yoe := y1 % 400
  let mp := (m + 9) % 12
  let doy := (153 * mp + 2) / 5 + (d - 1)
  let doe := yoe * 365 + yoe / 4 - yoe / 100 + doy
  era * 146097 + doe - 719468

/-- Modelled from the source's `funConvertGPSTime` (datetime.strptime with
format `%Y:%m:%d %H:%M:%S.%f%z` after appending `Z`, then `.timestamp()`):
parses `YYYY:MM:DD HH:MM:SS.ffffff` as UTC into seconds since the epoch.
Approximations (documented; no claim depends on this converter): the year
must be 1970 or later and have four digits, and the day-of-month check is
1..31 rather than the exact month length. -/
def convGPSTime (v : JVal) : Option ℚ := do
  let s := pyStrOfJVal v
  match s.split (fun c => c = (':' : Char)) with
  | [ys, mos, dhs, mis, ss] =>
    match dhs.split (fun c => c = (' ' : Char)) with
    | [ds, hs] => do
      let y ← digitsVal ys.data
      let mo ← digitsVal mos.data
      let d ← digitsVal ds.data
      let h ← digitsVal hs.data
      let mi ← digitsVal mis.data
      let (sints, fracs) :=
        match ss.data.span (fun c => c ≠ '.') with
        | (a, _ :: b) => (a, b)
        | (a, []) => (a, [])
      let sec ← digitsVal sints
      let fv ← digitsVal fracs
      guard (ys.length = 4 ∧ 1970 ≤ y ∧ 1 ≤ mo ∧ mo ≤ 12 ∧ 1 ≤ d ∧ d ≤ 31
        ∧ h ≤ 23 ∧ mi ≤ 59 ∧ sec ≤ 59 ∧ 1 ≤ fracs.length ∧ fracs.length ≤ 6)
      pure (((civilDays y mo d * 86400 + h * 3600 + mi * 60 + sec : ℕ) : ℚ)
        + (fv : ℚ) / ((10 : ℚ) ^ fracs.length))
    | _ => none
  | _ => none

/-- Chain a fallible collection step after a previous one: once an
exception has been raised the run is over and no further step executes. -/
def stepTyped (r : Dct × Option PyErr) (f : Dct → Dct × Option PyErr) :
    Dct × Option PyErr :=
  match r with
  | (d, some e) => (d, some e)
  | (d, none) => f d

/-- `dctEntry.get(field, "")`. -/
def jGetD (entry : List (String × JVal)) (field : String) : JVal :=
  (entry.lookup field).getD (.str "")

/-- Process the payload of one raw sample block (the body of the main
ingestion loop after the timestamp checks, convertTelemetry.py 444-487). -/
def processBlock (oriGrav oriQuat : Orientation)
    (entry : List (String × JVal)) (timeV durV : JVal) (dct : Dct) :
    Dct × Option PyErr :=
  match (match jGetD entry "InputOrientation" with
         | .str s => Orientation.init s "xyz" "XYZ" true
         | _ => .error .attributeError) with
  | .error e => (dct, some e)
  | .ok oriInput =>
    let r := appendTypedListFromString (jGetD entry "Accelerometer") pyFloat 3
      oriInput timeV durV dct "Acceleration"
    let r := stepTyped r (fun d => appendTypedListFromString
      (jGetD entry "Gyroscope") pyFloat 3 oriInput timeV durV d "Gyroscope")
    let r := stepTyped r (fun d => appendTypedListFromString
      (jGetD entry "GoPro_GRAV") pyFloat 3 oriGrav timeV durV d "Gravity")
    let r := stepTyped r (fun d => appendTypedListFromString
      (jGetD entry "GoPro_CORI") pyFloat 4 oriQuat timeV durV d "CameraAngle")
    let r := stepTyped r (fun d => appendTypedListFromString
      (jGetD entry "GoPro_IORI") pyFloat 4 oriQuat timeV durV d "ImageAngle")
    match r with
    | (d, some e) => (d, some e)
    | (d, none) =>
      let d := appendValueFromDict entry "GPSLatitude" convFloat timeV d "Latitude"
      let d := appendValueFromDict entry "GPSLongitude" convFloat timeV d "Longitude"
      let d := appendValueFromDict entry "GPSAltitude" convFloat timeV d "Altitude"
      let d := appendValueFromDict entry "GPSSpeed" convFloat timeV d "GPSSpeed2D"
      let d := appendValueFromDict entry "GPSSpeed3D" convFloat timeV d "GPSSpeed3D"
      let d := appendValueFromDict entry "GPSHPositioningError" convFloat timeV d "GPSHorizontalError"
      let d := appendValueFromDict entry "GPSDateTime" convGPSTime timeV d "GPSTime"
      let d := appendValueFromDict entry "CameraTemperature" convFloat timeV d "Temperature"
      (d, none)

/-- The main ingestion loop (convertTelemetry.py 427-487), with explicit
fuel (one more than the number of document entries always suffices, since
the loop stops at the first missing `Doc<i>` key).  Reading the block or
its `SampleDuration`/`SampleTime` fields under try catches
TypeError/ValueError/KeyError and breaks; the comparison
`fltDuration <= 0` is outside the try and raises `TypeError` on a
non-numeric duration. -/
def ingestGo (oriGrav oriQuat : Orientation) (dctIn : List (String × JVal)) :
    ℕ → ℕ → Dct → Dct × Option PyErr
  | 0, _, dct => (dct, none)
  | fuel + 1, intIdx, dct =>
    match dctIn.lookup ("Doc" ++ toString intIdx) with
    | none => (dct, none)
    | some entryV =>
      match entryV with
      | .obj entry =>
        match entry.lookup "SampleDuration", entry.lookup "SampleTime" with
        | some durV, some timeV =>
          match durV with
          | .num q =>
            if q ≤ 0 then (dct, none)
            else
              match processBlock oriGrav oriQuat entry timeV durV dct with
              | (d, some e) => (d, some e)
              | (d, none) => ingestGo oriGrav oriQuat dctIn fuel (intIdx + 1) d
          | _ => (dct, some .typeError)
        | _, _ => (dct, none)
      | _ => (dct, none)

/-- Run the ingestion loop from `Doc1` on an empty output dictionary. -/
def ingest (oriGrav oriQuat : Orientation) (dctIn : List (String × JVal)) :
    Dct × Option PyErr :=
  ingestGo oriGrav oriQuat dctIn (dctIn.length + 1) 1 []

/-! ## Resampler (convertTelemetry.py 489-520) and the scipy boundary -/

/-- Strictly increasing test on abscissae. -/
def listStrictInc : List ℚ → Bool
  | [] => true
  | [_] => true
  | a :: b :: t => decide (a < b) && listStrictInc (b :: t)

/-- Linear interpolation value at `t` over breakpoints `xs` with values
`ys` (constant extrapolation outside). -/
def linInterpAt : List ℚ → List ℚ → ℚ → ℚ
  | x1 :: x2 :: xs, y1 :: y2 :: ys, t =>
    if t ≤ x2 ∨ xs = [] then y1 + (t - x1) * ((y2 - y1) / (x2 - x1))
    else linInterpAt (x2 :: xs) (y2 :: ys) t
  | _, _, _ => 0

/-- Slope of the segment containing `t`. -/
def linInterpDerivAt : List ℚ → List ℚ → ℚ → ℚ
  | x1 :: x2 :: xs, y1 :: y2 :: ys, t =>
    if t ≤ x2 ∨ xs = [] then (y2 - y1) / (x2 - x1)
    else linInterpDerivAt (x2 :: xs) (y2 :: ys) t
  | _, _, _ => 0

/-- Modelled from the spec (section 4.3) and scipy's documented contract:
`scipy.interpolate.CubicSpline(x, y)` raises `ValueError` unless `x` has at
least two entries, is strictly increasing, and matches `y` in length;
otherwise it returns a smooth interpolant.  The claims below depend only on
this definedness condition and on the output being a plain array of the
evaluation grid's length, so the fitted interpolant itself is represented
by piecewise-linear interpolation (which agrees with the true spline on the
constant data used in the concrete evaluations below). -/
def cubicSplinePrecondOk (xs ys : List ℚ) : Bool :=
  decide (2 ≤ xs.length) && decide (xs.length = ys.length) && listStrictInc xs

/-- `CubicSpline(xs, ys)(tNew)` under the model above. -/
def cubicSplineEval (xs ys tNew : List ℚ) : Except PyErr (List ℚ) :=
  if cubicSplinePrecondOk xs ys then .ok (tNew.map (linInterpAt xs ys))
  else .error .valueError

/-- `CubicSpline(xs, ys).derivative()(tNew)` under the model above. -/
def cubicSplineDerivEval (xs ys tNew : List ℚ) : Except PyErr (List ℚ) :=
  if cubicSplinePrecondOk xs ys then .ok (tNew.map (linInterpDerivAt xs ys))
  else .error .valueError

/-- One channel's resampling step in the main loop (convertTelemetry.py
504-520), for a scalar channel that is not one of the two angle channels:
`zip(*dctOut[strKey])` raises `ValueError` only on an empty sample list,
which the surrounding try catches (`pass`, channel left as collected);
the `CubicSpline` call sits in the `else` block, outside the protection of
the try, so its `ValueError` (fewer than two samples, or non-increasing
timestamps) propagates and aborts the run.  The first component is the
replacement array when resampling succeeded, the second the escaped
exception. -/
def resampleChannel (samples : List (ℚ × ℚ)) (tNew : List ℚ) :
    Option (List ℚ) × Option PyErr :=
  match samples with
  | [] => (none, none)
  | _ :: _ =>
    match cubicSplineEval (samples.map Prod.fst) (samples.map Prod.snd) tNew with
    | .error e => (none, some e)
    | .ok vs => (some vs, none)

/-! ## Gravity calibration window (convertTelemetry.py 64-87, 552-565) -/

/-- `processCalGravArgs`: partition the argument at the first dash; without
a separator return `slice(0, 0)`; otherwise the start index is
`int(float(t0) * framerate)` (0 when the conversion fails) and the stop
index is `int(float(t1) * framerate) + 1` (`None` when the conversion
fails). -/
def processCalGravArgs (strCalGrav : String) (fltFramerate : ℚ) : PySlice :=
  match pyPartition strCalGrav '-' with
  | (_, false, _) => ⟨0, some 0⟩
  | (strT0, true, strT1) =>
    let i0 : ℤ :=
      match pyFloat strT0 with
      | some q => pyTrunc (q * fltFramerate)
      | none => 0
    let i1 : Option ℤ :=
      match pyFloat strT1 with
      | some q => some (pyTrunc (q * fltFramerate) + 1)
      | none => none
    ⟨i0, i1⟩

/-- Insert into a sorted list. -/
def insertSorted (x : ℚ) : List ℚ → List ℚ
  | [] => [x]
  | y :: ys => if x ≤ y then x :: y :: ys else y :: insertSorted x ys

/-- Insertion sort. -/
def sortQ (l : List ℚ) : List ℚ := l.foldr insertSorted []

/-- `numpy.median` of a one-dimensional array: middle element of the sorted
data, or the average of the two middle elements for even lengths. -/
def npMedian (l : List ℚ) : ℚ :=
  let s := sortQ l
  let n := s.length
  if n % 2 = 1 then s.getD (n / 2) 0
  else (s.getD (n / 2 - 1) 0 + s.getD (n / 2) 0) / 2

/-- Dimensionality of a list of sample vectors. -/
def vecDim (rows : List (List ℚ)) : ℕ := (rows.headD []).length

/-- One column of a list of sample vectors. -/
def colAt (rows : List (List ℚ)) (j : ℕ) : List ℚ := rows.map (fun r => r.getD j 0)

/-- `numpy.median(rows, axis=0)`: componentwise median. -/
def npMedianAxis0 (rows : List (List ℚ)) : List ℚ :=
  (List.range (vecDim rows)).map (fun j => npMedian (colAt rows j))

/-- Outcome of the gravity-calibration branch of the resampling loop
(convertTelemetry.py 552-565): if the windowed gravity slice is non-empty,
`rotCalGrav` is recomputed from the componentwise median of the windowed
samples (by the arccos/sequential-rotation procedure, which operates on
this median); otherwise `rotCalGrav` keeps its initial identity value. -/
inductive CalGravResult where
  | identity
  | fromMedian (g : List ℚ)
deriving DecidableEq

/-- The branch guard and its input: `arrGrav = dctOut["Gravity"][slc]`,
calibration performed exactly when `len(arrGrav) > 0`. -/
def calGravBranch (grav : List (List ℚ)) (slc : PySlice) : CalGravResult :=
  let w := pySliceList grav slc
  if w.length > 0 then .fromMedian (npMedianAxis0 w) else .identity

/-! ## Offset corrector (convertTelemetry.py 570-606) -/

/-- `numpy.mean` of a one-dimensional array (exact over rationals). -/
def npMean (l : List ℚ) : ℚ := l.sum / (l.length : ℚ)

/-- One offset specification for a scalar channel: target value, frame
window, central-tendency method. -/
abbrev OffsetSpecS : Type := ℚ × PySlice × (List ℚ → ℚ)

/-- The accumulation loop over one channel's offset specifications (scalar
target values): `varOffset` is initialised lazily (to `0.0` for a scalar
target, since `numpy.zeros(len(scalar))` raises and is caught), windows
selecting zero samples are skipped, and each contributing window adds
`len * (value - method(arr[window]))` while the weight accumulates. -/
def offsetLoopScalar (arr : List ℚ) :
    List OffsetSpecS → Option ℚ → ℕ → Option ℚ × ℕ
  | [], v, n => (v, n)
  | (val, slc, f) :: rest, v, n =>
    let v1 : ℚ := match v with | none => 0 | some x => x
    let w := pySliceList arr slc
    if w.length > 0 then
      offsetLoopScalar arr rest (some (v1 + (w.length : ℚ) * (val - f w))) (n + w.length)
    else
      offsetLoopScalar arr rest (some v1) n

/-- Offset correction of a scalar channel: after the loop, divide the
accumulated offset by the accumulated weight (`ZeroDivisionError` on a zero
weight is caught and leaves the channel unmodified) and add the result to
every sample. -/
def offsetCorrectScalar (arr : List ℚ) (specs : List OffsetSpecS) : List ℚ :=
  match offsetLoopScalar arr specs none 0 with
  | (none, _) => arr
  | (some off, n) =>
    if n = 0 then arr
    else arr.map (fun x => off / (n : ℚ) + x)

/-- The claim's per-specification contribution
`window_len * (target_value - method(channel[window]))`. -/
def specContrib (arr : List ℚ) (s : OffsetSpecS) : ℚ :=
  let w := pySliceList arr s.2.1
  if w.length > 0 then (w.length : ℚ) * (s.1 - s.2.2 w) else 0

/-- The claim's per-specification window length. -/
def specLen (arr : List ℚ) (s : OffsetSpecS) : ℕ := (pySliceList arr s.2.1).length

/-- The claim's total correction numerator. -/
def claimOffsetSum (arr : List ℚ) (specs : List OffsetSpecS) : ℚ :=
  (specs.map (specContrib arr)).sum

/-- The claim's total window length. -/
def claimTotalLen (arr : List ℚ) (specs : List OffsetSpecS) : ℕ :=
  (specs.map (specLen arr)).sum

/-- The Python slice selecting a whole resampled series (empty `T0`, empty
`T1`). -/
def pySliceFull : PySlice := ⟨0, none⟩

/-- A NumPy double as produced by the offset corrector: a finite value, or
NaN / infinities from a division by zero. -/
inductive PyF where
  | num (q : ℚ)
  | nan
  | inf
  | ninf
deriving DecidableEq

/-- NumPy elementwise division of a finite value by an integer count,
including the zero-count case: `0 / 0` is NaN and `x / 0` is a signed
infinity (a RuntimeWarning, not an exception). -/
def npDivCount (a : ℚ) (n : ℕ) : PyF :=
  if n = 0 then
    if a = 0 then .nan else if 0 < a then .inf else .ninf
  else .num (a / (n : ℚ))

/-- NumPy addition on modelled doubles (NaN propagates). -/
def pyfAdd : PyF → PyF → PyF
  | .num a, .num b => .num (a + b)
  | .nan, _ => .nan
  | _, .nan => .nan
  | .inf, .ninf => .nan
  | .ninf, .inf => .nan
  | .inf, _ => .inf
  | _, .inf => .inf
  | .ninf, _ => .ninf
  | _, .ninf => .ninf

/-- `numpy.mean(rows, axis=0)`: componentwise mean. -/
def npMeanAxis0 (rows : List (List ℚ)) : List ℚ :=
  (List.range (vecDim rows)).map (fun j => npMean (colAt rows j))

/-- One offset specification for a vector channel: target vector, frame
window, central-tendency method along axis 0. -/
abbrev OffsetSpecV : Type := List ℚ × PySlice × (List (List ℚ) → List ℚ)

/-- The accumulation loop for a vector-valued target: `varOffset` is
initialised to `numpy.zeros(len(value))`; otherwise as in the scalar
loop, componentwise. -/
def offsetLoopVec (arr : List (List ℚ)) :
    List OffsetSpecV → Option (List ℚ) → ℕ → Option (List ℚ) × ℕ
  | [], v, n => (v, n)
  | (val, slc, f) :: rest, v, n =>
    let v1 : List ℚ := match v with | none => List.replicate val.length 0 | some x => x
    let w := pySliceList arr slc
    if w.length > 0 then
      offsetLoopVec arr rest
        (some (List.zipWith (fun a b => a + b) v1
          (List.zipWith (fun a b => (w.length : ℚ) * (a - b)) val (f w)))) (n + w.length)
    else
      offsetLoopVec arr rest (some v1) n

/-- Offset correction of a vector channel.  The final division
`varOffset / intLenSum` is a NumPy array operation: with a zero weight it
produces NaN components instead of raising, and the NaN offset is then
broadcast-added onto every sample of the channel. -/
def offsetCorrectVector (arr : List (List ℚ)) (specs : List OffsetSpecV) :
    List (List PyF) :=
  match offsetLoopVec arr specs none 0 with
  | (none, _) => arr.map (fun row => row.map PyF.num)
  | (some off, n) =>
    let offF := off.map (fun a => npDivCount a n)
    arr.map (fun row => List.zipWith pyfAdd offF (row.map PyF.num))

/-! ## GPS precision mask, true course, turn rate (convertTelemetry.py 608-653) -/

/-- The per-sample imprecision mask, from `numpy.logical_or` of
`numpy.greater(hdop, args.hdop)` and `numpy.less(speed, args.minspeed)`. -/
def arrMaskNotPrecise (hdop speed : List ℚ) (hdopMax minspeed : ℚ) : List Bool :=
  List.zipWith (fun a b => decide (hdopMax < a) || decide (b < minspeed)) hdop speed

/-- A `numpy.ma.masked_array`: underlying data plus mask (true = masked). -/
structure MaskedArr where
  data : List ℚ
  mask : List Bool

/-- `MaskedArray.count()`: number of unmasked entries. -/
def maCount (a : MaskedArr) : ℕ := a.mask.count false

/-- `MaskedArray.tolist()` as invoked by the JSON encoder: masked entries
become `None` (missing), unmasked entries plain numbers. -/
def maskedToList (a : MaskedArr) : List (Option ℚ) :=
  List.zipWith (fun d m => if m then none else some d) a.data a.mask

/-- `ndarray.tolist()` for a plain array: every entry is a number. -/
def ndToList (xs : List ℚ) : List (Option ℚ) := xs.map some

/-- The turn-rate computation (convertTelemetry.py 640):
`CubicSpline(arrTNew, dctOut["TrueCourse"]).derivative()(arrTNew)`.
Passing the masked TrueCourse array through `numpy.asarray` inside scipy
drops the mask, so the spline is fitted on the underlying data and the
result is a plain ndarray carrying no mask; its JSON encoding therefore
has a number at every position. -/
def turnRateOut (tNew : List ℚ) (tc : MaskedArr) :
    Option (List (Option ℚ)) × Option PyErr :=
  match cubicSplineDerivEval tNew tc.data tNew with
  | .error e => (none, some e)
  | .ok ds => (some (ndToList ds), none)

/-! ## True-course yaw matching (convertTelemetry.py 655-685) -/

/-- `scipy.stats.mstats.linregress(x, y)` on a plain abscissa array and a
masked ordinate array: ordinary least squares over the unmasked pairs,
returning (slope, intercept).  The degenerate zero-variance case (NaN in
NumPy) is not exercised by any evaluation below. -/
def linregressMasked (xs : List ℚ) (y : MaskedArr) : ℚ × ℚ :=
  let pairs := (xs.zip (y.data.zip y.mask)).filterMap
    (fun p => if p.2.2 then none else some (p.1, p.2.1))
  let n : ℚ := (pairs.length : ℚ)
  let sx := (pairs.map Prod.fst).sum
  let sy := (pairs.map Prod.snd).sum
  let sxy := (pairs.map (fun p => p.1 * p.2)).sum
  let sxx := (pairs.map (fun p => p.1 * p.1)).sum
  let slope := (n * sxy - sx * sy) / (n * sxx - sx * sx)
  (slope, (sy - slope * sx) / n)

/-- The final CameraAngle block (convertTelemetry.py 657-685).  Entered when
either flag is unset.  Inside, the regression of `TrueCourse - yaw` against
time runs whenever the true course has at least one unmasked sample -
without consulting `noTCmatch` - and adds the fitted line to yaw; with no
unmasked sample, yaw is zeroed at its first sample instead.  Roll and pitch
are zeroed at their first samples unless `noRPYZero` is set.  CameraAngle
rows are `[roll, pitch, yaw]` samples. -/
def tcMatchBlock (noTCmatch noRPYZero : Bool) (arrT : List ℚ)
    (tc : MaskedArr) (cam : List (List ℚ)) : List (List ℚ) :=
  if !noTCmatch || !noRPYZero then
    let roll := cam.map (fun r => r.getD 0 0)
    let pitch := cam.map (fun r => r.getD 1 0)
    let yaw := cam.map (fun r => r.getD 2 0)
    let regression := maCount tc > 0
    let yaw1 :=
      if regression then
        let diff : MaskedArr := ⟨List.zipWith (fun d y0 => d - y0) tc.data yaw, tc.mask⟩
        let sl := linregressMasked arrT diff
        List.zipWith (fun y0 t => y0 + sl.2 + sl.1 * t) yaw arrT
      else yaw
    let zYaw : ℚ := if regression then 0 else yaw.headD 0
    let zR : ℚ := if !noRPYZero then roll.headD 0 else 0
    let zP : ℚ := if !noRPYZero then pitch.headD 0 else 0
    List.zipWith (fun r pq => [r - zR, pq.1 - zP, pq.2 - zYaw]) roll (pitch.zip yaw1)
  else cam

/-! ## Claim-side predicate for the Orientation contract -/

/-- The specification's validity condition for an axis-sequence string: a
case-insensitive permutation of the alphabet, of the correct length. -/
def specIsPermCI (s strAxes : String) : Bool :=
  let x := lowerChars s
  let y := lowerChars strAxes
  decide (x.length = y.length) &&
    y.all (fun c => x.count c == y.count c) &&
    x.all (fun c => x.count c == y.count c)

/-! ## Claim theorems -/

/-- C1: the claim states that a gravity-calibration window whose start time
equals its end time (here `--calGrav 5-5` at framerate 10) disables
calibration, leaving the identity rotation.  In the code,
`processCalGravArgs` maps `5-5` to `slice(50, 51)`, a one-sample window on
any gravity series with at least 51 resampled samples, so the calibration
branch runs and recomputes the rotation from that sample's median instead
of keeping the identity (for the median `(0,1,0)` the first rotation angle
is `arccos 0`, a quarter turn).  This contradicts the program's own help
text ("If T1 equals T2, gravity calibration is disabled."). -/
theorem calGrav_equal_window_bug :
    processCalGravArgs "5-5" 10 = ⟨50, some 51⟩ ∧
    calGravBranch (List.replicate 60 [0, 1, 0]) (processCalGravArgs "5-5" 10)
      = CalGravResult.fromMedian [0, 1, 0] ∧
    calGravBranch (List.replicate 60 [0, 1, 0]) (processCalGravArgs "5-5" 10)
      ≠ CalGravResult.identity := by
  refine ⟨?_, ?_, ?_⟩ <;> with_unfolding_all decide

/-- C2: the claim states that a channel with fewer than two distinct
samples is dropped gracefully.  In the code only the tuple unpacking is
protected by try/except; `CubicSpline` is called in the `else` block, so a
single-sample channel (or two samples sharing a timestamp) raises an
uncaught `ValueError` that aborts the run instead of omitting the
channel. -/
theorem resample_single_sample_crash :
    resampleChannel [(0, 5)] [0, 1] = (none, some PyErr.valueError) ∧
    resampleChannel [(0, 5), (0, 6)] [0, 1] = (none, some PyErr.valueError) := by
  constructor <;> with_unfolding_all decide

/-- C4: the claim states that setting the flag disabling true-course yaw
matching suppresses the regression.  In the code the flag only guards the
surrounding block (entered when either flag is unset); the regression
itself runs whenever the true course has an unmasked sample.  With
`noTCmatch = true`, `noRPYZero = false`, timeline `[0, 1]`, fully unmasked
true course `[0, 1]` and constant zero camera angles, the fitted line
(slope 1, intercept 0) is still added to yaw, so the final yaw column is
`[0, 1]`, not the unchanged `[0, 0]`. -/
theorem noTCmatch_flag_not_disabling :
    tcMatchBlock true false [0, 1] ⟨[0, 1], [false, false]⟩ [[0, 0, 0], [0, 0, 0]]
      = [[0, 0, 0], [0, 0, 1]] ∧
    tcMatchBlock true false [0, 1] ⟨[0, 1], [false, false]⟩ [[0, 0, 0], [0, 0, 0]]
      ≠ [[0, 0, 0], [0, 0, 0]] := by
  constructor <;> with_unfolding_all decide

/-- C8: the claim states that ingestion stops before any block whose
`SampleTime` is bad, leaving previously collected channel lengths
untouched.  For a block whose `SampleTime` is the string "oops" (with a
valid duration and an accelerometer payload), the code instead processes
the block: one sample is appended with the string timestamp, and the
timestamp advance `t = t + dt` then raises an uncaught `TypeError`, so the
channel length changes and the run aborts - contradicting the docstring of
`appendTypedListFromString` ("If fltTimestamp or fltDuration are
non-numeric, bail out early, without error."). -/
theorem ingest_bad_sampletime_bug :
    ingest oriGravDef oriQuatDef
        [("Doc1", JVal.obj [("SampleTime", JVal.str "oops"),
          ("SampleDuration", JVal.num 1), ("Accelerometer", JVal.str "1 2 3")])]
      = ([("Acceleration", [(JVal.str "oops", CVal.vec [1, 2, 3])])],
          some PyErr.typeError) := by
  with_unfolding_all rfl

/-- C9 counterexample: the claim states that a block payload of wrong arity
contributes zero samples and raises nothing.  For the four-token payload
"1 2 3 4" with dimensionality 3 under the default identity orientation, the
code appends the one complete leading vector and then raises `IndexError`
from `mangle` on the short final group, which propagates out of the
collection call. -/
theorem append_wrong_arity_cex :
    (appendTypedListFromString (.str "1 2 3 4") pyFloat 3 oriXYZ (.num 0)
        (.num 1) [] "Acceleration").2 = some PyErr.indexError ∧
    channelLen (appendTypedListFromString (.str "1 2 3 4") pyFloat 3 oriXYZ
        (.num 0) (.num 1) [] "Acceleration").1 "Acceleration" = 1 := by
  constructor <;> with_unfolding_all decide

/-- C3 counterexample: the claim states that every input that is not a
case-insensitive permutation of the alphabet falls back to the given
default.  The input "abc" over alphabet "xyz" with default "yxz" is no such
permutation, yet the constructor (which succeeds) replaces the default by
the alphabet string itself, producing the identity index map - different
from the map built from the default "yxz". -/
theorem orientation_fallback_cex :
    specIsPermCI "abc" "xyz" = false ∧
    Orientation.init "abc" "xyz" "yxz" true
      = Except.ok (exceptOri (Orientation.init "abc" "xyz" "yxz" true)) ∧
    (exceptOri (Orientation.init "abc" "xyz" "yxz" true)).dctMap
      ≠ (exceptOri (Orientation.init "yxz" "xyz" "yxz" true)).dctMap := by
  refine ⟨?_, ?_, ?_⟩ <;> with_unfolding_all decide

/-- C6 counterexample: the claim states that a channel whose offset windows
select zero samples in total is left unmodified.  For a vector-valued
target, `varOffset` is the NumPy zero vector and the division by the zero
weight yields NaN components (no exception), which are then added onto the
channel: the single gravity sample `[1, 2, 3]` is overwritten by NaNs. -/
theorem offset_zero_weight_vector_cex :
    offsetCorrectVector [[1, 2, 3]] [([0, 0, 0], ⟨5, some 6⟩, npMeanAxis0)]
      = [[PyF.nan, PyF.nan, PyF.nan]] ∧
    offsetCorrectVector [[1, 2, 3]] [([0, 0, 0], ⟨5, some 6⟩, npMeanAxis0)]
      ≠ [[PyF.num 1, PyF.num 2, PyF.num 3]] := by
  constructor <;> with_unfolding_all decide

/-- C7 counterexample: the claim states that masked positions are excluded
from both the TrueCourse and the TurnRate outputs.  With HDOP `[15, 0, 0]`
under threshold 10 (speeds all 5 above threshold 1), position 0 is masked
and becomes `None` in the TrueCourse encoding, but the TurnRate output is a
plain (unmasked) array - the spline is fitted on the underlying data - so
position 0 still carries a number. -/
theorem gps_mask_turnrate_cex :
    arrMaskNotPrecise [15, 0, 0] [5, 5, 5] 10 1 = [true, false, false] ∧
    maskedToList ⟨[0, 0, 0], arrMaskNotPrecise [15, 0, 0] [5, 5, 5] 10 1⟩
      = [none, some 0, some 0] ∧
    (turnRateOut [0, 1, 2]
        ⟨[0, 0, 0], arrMaskNotPrecise [15, 0, 0] [5, 5, 5] 10 1⟩).1
      = some [some 0, some 0, some 0] := by
  refine ⟨?_, ?_, ?_⟩ <;> with_unfolding_all decide

/-! ## Helper lemmas for the offset corrector -/

/-- The full slice returns the whole list. -/
theorem pySliceList_full {α : Type} (xs : List α) : pySliceList xs pySliceFull = xs := by
  simp [pySliceList, pySliceFull, pySliceResolve]

/-- Sum of a constant shift over a list. -/
theorem sum_map_const_add (c : ℚ) (l : List ℚ) :
    (l.map (fun x => c + x)).sum = c * (l.length : ℚ) + l.sum := by
  induction l with
  | nil => simp
  | cons a t ih =>
    simp only [List.map_cons, List.sum_cons, ih, List.length_cons]
    push_cast
    ring

/-- Unfold the claim's contribution sum over the first specification. -/
theorem claimOffsetSum_cons (arr : List ℚ) (s : OffsetSpecS) (rest : List OffsetSpecS) :
    claimOffsetSum arr (s :: rest) = specContrib arr s + claimOffsetSum arr rest := by
  simp [claimOffsetSum]

/-- Unfold the claim's total window length over the first specification. -/
theorem claimTotalLen_cons (arr : List ℚ) (s : OffsetSpecS) (rest : List OffsetSpecS) :
    claimTotalLen arr (s :: rest) = specLen arr s + claimTotalLen arr rest := by
  simp [claimTotalLen]

/-- The accumulation loop, started from an already-initialised offset, adds
the claim's contribution sum and total window length. -/
theorem offsetLoopScalar_some (arr : List ℚ) :
    ∀ (specs : List OffsetSpecS) (v0 : ℚ) (n0 : ℕ),
    offsetLoopScalar arr specs (some v0) n0
      = (some (v0 + claimOffsetSum arr specs), n0 + claimTotalLen arr specs) := by
  intro specs
  induction specs with
  | nil =>
    intro v0 n0
    simp [offsetLoopScalar, claimOffsetSum, claimTotalLen]
  | cons s rest ih =>
    intro v0 n0
    obtain ⟨val, slc, f⟩ := s
    rw [claimOffsetSum_cons, claimTotalLen_cons]
    by_cases hw : (pySliceList arr slc).length > 0
    · simp only [offsetLoopScalar, specContrib, specLen, if_pos hw, ih,
        Prod.mk.injEq, Option.some.injEq]
      exact ⟨by ring, by omega⟩
    · have h0 : (pySliceList arr slc).length = 0 := Nat.eq_zero_of_not_pos hw
      simp only [offsetLoopScalar, specContrib, specLen, if_neg hw, ih,
        Prod.mk.injEq, Option.some.injEq, h0]
      simp

/-- The accumulation loop from the uninitialised accumulator (at least one
specification present). -/
theorem offsetLoopScalar_none (arr : List ℚ) (s : OffsetSpecS)
    (rest : List OffsetSpecS) :
    offsetLoopScalar arr (s :: rest) none 0
      = (some (claimOffsetSum arr (s :: rest)), claimTotalLen arr (s :: rest)) := by
  obtain ⟨val, slc, f⟩ := s
  rw [claimOffsetSum_cons, claimTotalLen_cons]
  by_cases hw : (pySliceList arr slc).length > 0
  · simp only [offsetLoopScalar, specContrib, specLen, if_pos hw,
      offsetLoopScalar_some, Prod.mk.injEq, Option.some.injEq]
    exact ⟨by ring, by omega⟩
  · have h0 : (pySliceList arr slc).length = 0 := Nat.eq_zero_of_not_pos hw
    simp only [offsetLoopScalar, specContrib, specLen, if_neg hw,
      offsetLoopScalar_some, Prod.mk.injEq, Option.some.injEq, h0]
    simp

/-- The corrected channel for a positive total window length. -/
theorem offsetCorrectScalar_eq (arr : List ℚ) (specs : List OffsetSpecS)
    (h : 0 < claimTotalLen arr specs) :
    offsetCorrectScalar arr specs
      = arr.map (fun x =>
          claimOffsetSum arr specs / (claimTotalLen arr specs : ℚ) + x) := by
  match specs with
  | [] => simp [claimTotalLen] at h
  | s :: rest =>
    unfold offsetCorrectScalar
    rw [offsetLoopScalar_none]
    have hne : claimTotalLen arr (s :: rest) ≠ 0 := Nat.pos_iff_ne_zero.mp h
    simp [hne]

/-- Mean of the corrected channel for a single whole-series mean
specification. -/
theorem offsetCorrect_mean_target (arr : List ℚ) (v : ℚ) (h2 : arr ≠ []) :
    npMean (offsetCorrectScalar arr [(v, pySliceFull, npMean)]) = v := by
  have hfull : pySliceList arr pySliceFull = arr := pySliceList_full arr
  have hlenpos : 0 < arr.length := List.length_pos.mpr h2
  have hL : ((arr.length : ℕ) : ℚ) ≠ 0 := by
    exact_mod_cast Nat.pos_iff_ne_zero.mp hlenpos
  have h1 : 0 < claimTotalLen arr [(v, pySliceFull, npMean)] := by
    simpa [claimTotalLen, specLen, hfull] using hlenpos
  rw [offsetCorrectScalar_eq _ _ h1]
  have hsum : claimOffsetSum arr [(v, pySliceFull, npMean)]
      = (arr.length : ℚ) * (v - npMean arr) := by
    simp [claimOffsetSum, specContrib, hfull, hlenpos]
  have hlen : claimTotalLen arr [(v, pySliceFull, npMean)] = arr.length := by
    simp [claimTotalLen, specLen, hfull]
  rw [hsum, hlen]
  unfold npMean
  rw [List.length_map, sum_map_const_add]
  field_simp

/-- All-empty windows contribute nothing to either sum. -/
theorem claimSums_zero (arr : List ℚ) (specs : List OffsetSpecS)
    (h : ∀ s ∈ specs, specLen arr s = 0) :
    claimOffsetSum arr specs = 0 ∧ claimTotalLen arr specs = 0 := by
  induction specs with
  | nil => simp [claimOffsetSum, claimTotalLen]
  | cons s rest ih =>
    have hs := h s (List.mem_cons_self s rest)
    obtain ⟨ih1, ih2⟩ := ih (fun x hx => h x (List.mem_cons_of_mem s hx))
    have hw : ¬ (pySliceList arr s.2.1).length > 0 := by
      simp only [specLen] at hs; omega
    rw [claimOffsetSum_cons, claimTotalLen_cons]
    constructor
    · simp [specContrib, hw, ih1]
    · simp [hs, ih2]

/-- NaN absorbs the whole row under broadcast addition. -/
theorem zipWith_nan_left :
    ∀ (row : List ℚ), List.zipWith pyfAdd (List.replicate row.length PyF.nan)
      (row.map PyF.num) = List.replicate row.length PyF.nan := by
  intro row
  induction row with
  | nil => rfl
  | cons a t ih => simpa [List.replicate, pyfAdd] using ih

/-! ## C5, C6, C10 -/

/-- C5: for a channel with offset specifications of positive total window
weight, the correction added to every sample is the sum over specifications
of `window_len * (target - method(channel[window]))` divided by the total
window length; consequently a single whole-series specification with the
mean method makes the corrected channel's mean equal the target value. -/
theorem offset_correction_formula (arr : List ℚ) (specs : List OffsetSpecS)
    (v : ℚ) (h1 : 0 < claimTotalLen arr specs) (h2 : arr ≠ []) :
    offsetCorrectScalar arr specs
      = arr.map (fun x =>
          claimOffsetSum arr specs / (claimTotalLen arr specs : ℚ) + x) ∧
    npMean (offsetCorrectScalar arr [(v, pySliceFull, npMean)]) = v :=
  ⟨offsetCorrectScalar_eq arr specs h1, offsetCorrect_mean_target arr v h2⟩

/-- C5 witness: channel `[10, 20]`, one whole-series mean specification with
target 18 (weight 2 > 0). -/
theorem offset_correction_formula_witness :
    (0 < claimTotalLen [10, 20] [((18 : ℚ), pySliceFull, npMean)] ∧
      ([10, 20] : List ℚ) ≠ []) ∧
    (offsetCorrectScalar [10, 20] [((18 : ℚ), pySliceFull, npMean)]
      = ([10, 20] : List ℚ).map (fun x =>
          claimOffsetSum [10, 20] [((18 : ℚ), pySliceFull, npMean)]
            / (claimTotalLen [10, 20] [((18 : ℚ), pySliceFull, npMean)] : ℚ) + x) ∧
     npMean (offsetCorrectScalar [10, 20] [((18 : ℚ), pySliceFull, npMean)]) = 18) :=
  ⟨⟨by with_unfolding_all decide, by with_unfolding_all decide⟩,
    offset_correction_formula [10, 20] [((18 : ℚ), pySliceFull, npMean)] 18
      (by with_unfolding_all decide) (by with_unfolding_all decide)⟩

/-- C6 amended: when every offset window of a channel selects zero samples,
the corrector leaves the channel unmodified if the target values are
scalars (the zero-weight float division raises `ZeroDivisionError`, which
is caught); with a vector-valued target the NumPy zero-weight division
yields NaN components and the channel is overwritten with NaN rows
instead. -/
theorem offset_zero_weight_amended (arr : List ℚ) (specs : List OffsetSpecS)
    (h : ∀ s ∈ specs, specLen arr s = 0)
    (arrV : List (List ℚ)) (d : ℕ) (val : List ℚ) (slc : PySlice)
    (m : List (List ℚ) → List ℚ)
    (hd : val.length = d) (hrow : ∀ row ∈ arrV, row.length = d)
    (hw : (pySliceList arrV slc).length = 0) :
    offsetCorrectScalar arr specs = arr ∧
    offsetCorrectVector arrV [(val, slc, m)]
      = arrV.map (fun _ => List.replicate d PyF.nan) := by
  constructor
  · match specs with
    | [] => rfl
    | s :: rest =>
      obtain ⟨h1, h2⟩ := claimSums_zero arr (s :: rest) h
      unfold offsetCorrectScalar
      rw [offsetLoopScalar_none, h2]
      simp
  · have hwneg : ¬ (pySliceList arrV slc).length > 0 := by omega
    unfold offsetCorrectVector offsetLoopVec
    rw [if_neg hwneg]
    unfold offsetLoopVec
    have hdiv : (List.replicate val.length (0 : ℚ)).map (fun a => npDivCount a 0)
        = List.replicate d PyF.nan := by
      rw [List.map_replicate, hd]
      simp [npDivCount]
    simp only [hdiv]
    apply List.map_congr_left
    intro row hrowmem
    have hlen := hrow row hrowmem
    rw [← hlen]
    exact zipWith_nan_left row

/-- C6 amended witness: scalar channel `[10, 20]` with one out-of-range
window (unmodified), vector channel `[[1, 2, 3]]` with the same window
(overwritten with NaNs). -/
theorem offset_zero_weight_amended_witness :
    ((∀ s ∈ [((5 : ℚ), (⟨10, some 11⟩ : PySlice), npMean)],
        specLen [10, 20] s = 0) ∧
      ([0, 0, 0] : List ℚ).length = 3 ∧
      (∀ row ∈ [([1, 2, 3] : List ℚ)], row.length = 3) ∧
      (pySliceList [([1, 2, 3] : List ℚ)] (⟨10, some 11⟩ : PySlice)).length = 0) ∧
    (offsetCorrectScalar [10, 20] [((5 : ℚ), ⟨10, some 11⟩, npMean)] = [10, 20] ∧
      offsetCorrectVector [[1, 2, 3]] [(([0, 0, 0] : List ℚ), ⟨10, some 11⟩, npMeanAxis0)]
        = ([[1, 2, 3]] : List (List ℚ)).map (fun _ => List.replicate 3 PyF.nan)) :=
  ⟨⟨by intro s hs; fin_cases hs; with_unfolding_all decide,
      by with_unfolding_all decide,
      by intro row hr; fin_cases hr; with_unfolding_all decide,
      by with_unfolding_all decide⟩,
    offset_zero_weight_amended [10, 20] [((5 : ℚ), ⟨10, some 11⟩, npMean)]
      (by intro s hs; fin_cases hs; with_unfolding_all decide)
      [[1, 2, 3]] 3 [0, 0, 0] ⟨10, some 11⟩ npMeanAxis0
      (by with_unfolding_all decide)
      (by intro row hr; fin_cases hr; with_unfolding_all decide)
      (by with_unfolding_all decide)⟩

/-- C10: a vector payload with zero whitespace-separated tokens (missing or
empty field) contributes no samples and raises no exception: the spacing
computation divides by the token count, the resulting `ZeroDivisionError`
is caught by the function's try block, and the output dictionary is
returned unmodified. -/
theorem append_empty_payload_graceful (strIn : JVal) (conv : String → Option ℚ)
    (intDim : ℕ) (ori : Orientation) (t dur : JVal) (dct : Dct) (key : String)
    (h : pySplitWS (pyStrOfJVal strIn) = []) :
    appendTypedListFromString strIn conv intDim ori t dur dct key = (dct, none) := by
  unfold appendTypedListFromString
  rw [h]
  cases dur <;> simp [List.mapM.loop]

/-- C10 witness: the empty payload string with the accelerometer
conversion parameters. -/
theorem append_empty_payload_graceful_witness :
    pySplitWS (pyStrOfJVal (.str "")) = [] ∧
    appendTypedListFromString (.str "") pyFloat 3 oriXYZ (.num 0) (.num 1) []
      "Acceleration" = ([], none) :=
  ⟨by with_unfolding_all decide,
    append_empty_payload_graceful (.str "") pyFloat 3 oriXYZ (.num 0) (.num 1) []
      "Acceleration" (by with_unfolding_all decide)⟩

/-! ## C7: the GPS precision mask and its effect on the outputs -/

/-- C7 amended: the imprecision mask is true exactly where
`HDOP > hdop_threshold OR GPSSpeed2D < minspeed_threshold` (first conjunct,
the pointwise characterisation), and a masked position (here any position
satisfying the threshold condition, e.g. HDOP 15 under threshold 10
regardless of speed) is excluded from the TrueCourse output, encoded as
missing.  The TurnRate output, however, is a plain unmasked array - the
spline is fitted on the underlying true-course data - so the masked
position still carries a number there and no position is excluded from
TurnRate. -/
theorem gps_mask_amended (hdop speed tcData tNew : List ℚ)
    (hdopMax minspeed : ℚ) (i : ℕ) (a b : ℚ)
    (ha : hdop.get? i = some a) (hb : speed.get? i = some b)
    (hmask : hdopMax < a ∨ b < minspeed)
    (hlc : tcData.length = hdop.length) (hlt : tNew.length = tcData.length)
    (hn : 2 ≤ tNew.length) (hinc : listStrictInc tNew = true) :
    (arrMaskNotPrecise hdop speed hdopMax minspeed).get? i
      = some (decide (hdopMax < a) || decide (b < minspeed)) ∧
    (maskedToList ⟨tcData, arrMaskNotPrecise hdop speed hdopMax minspeed⟩).get? i
      = some none ∧
    Option.map Option.isSome
      (((turnRateOut tNew
          ⟨tcData, arrMaskNotPrecise hdop speed hdopMax minspeed⟩).1.getD []).get? i)
      = some true ∧
    (turnRateOut tNew ⟨tcData, arrMaskNotPrecise hdop speed hdopMax minspeed⟩).2
      = none := by
  have hm : (arrMaskNotPrecise hdop speed hdopMax minspeed).get? i
      = some (decide (hdopMax < a) || decide (b < minspeed)) := by
    rw [arrMaskNotPrecise, List.get?_zipWith', ha, hb]
    rfl
  have hmt : (arrMaskNotPrecise hdop speed hdopMax minspeed).get? i = some true := by
    rw [hm]
    rcases hmask with h | h <;> simp [h]
  have hi : i < hdop.length := by
    by_contra hge
    rw [List.get?_eq_none.mpr (Nat.le_of_not_lt hge)] at ha
    exact Option.noConfusion ha
  have hic : i < tcData.length := by omega
  obtain ⟨d0, hd0⟩ : ∃ d0, tcData.get? i = some d0 :=
    ⟨tcData.get ⟨i, hic⟩, List.get?_eq_get hic⟩
  have hpre : cubicSplinePrecondOk tNew tcData = true := by
    have h1 : decide (2 ≤ tNew.length) = true := decide_eq_true hn
    have h2 : decide (tNew.length = tcData.length) = true := decide_eq_true hlt
    simp [cubicSplinePrecondOk, h1, h2, hinc]
  have htr : turnRateOut tNew ⟨tcData, arrMaskNotPrecise hdop speed hdopMax minspeed⟩
      = (some (ndToList (tNew.map (linInterpDerivAt tNew tcData))), none) := by
    rw [turnRateOut, cubicSplineDerivEval, if_pos hpre]
  refine ⟨hm, ?_, ?_, ?_⟩
  · rw [maskedToList, List.get?_zipWith', hd0, hmt]
    rfl
  · rw [htr]
    have hit : i < tNew.length := by omega
    obtain ⟨t0, ht0⟩ : ∃ t0, tNew.get? i = some t0 :=
      ⟨tNew.get ⟨i, hit⟩, List.get?_eq_get hit⟩
    simp only [ndToList, Option.getD_some]
    rw [List.get?_map, List.get?_map, ht0]
    rfl
  · rw [htr]

/-- C7 amended witness: HDOP 15 at position 0 under threshold 10,
speed 5 above threshold 1, constant true-course data on timeline
`[0, 1, 2]`. -/
theorem gps_mask_amended_witness :
    (([15, 0, 0] : List ℚ).get? 0 = some 15 ∧
      ([5, 5, 5] : List ℚ).get? 0 = some 5 ∧
      ((10 : ℚ) < 15 ∨ (5 : ℚ) < 1) ∧
      ([0, 0, 0] : List ℚ).length = ([15, 0, 0] : List ℚ).length ∧
      ([0, 1, 2] : List ℚ).length = ([0, 0, 0] : List ℚ).length ∧
      2 ≤ ([0, 1, 2] : List ℚ).length ∧
      listStrictInc [0, 1, 2] = true) ∧
    ((arrMaskNotPrecise [15, 0, 0] [5, 5, 5] 10 1).get? 0
        = some (decide ((10 : ℚ) < 15) || decide ((5 : ℚ) < 1)) ∧
      (maskedToList ⟨[0, 0, 0], arrMaskNotPrecise [15, 0, 0] [5, 5, 5] 10 1⟩).get? 0
        = some none ∧
      Option.map Option.isSome
        (((turnRateOut [0, 1, 2]
            ⟨[0, 0, 0], arrMaskNotPrecise [15, 0, 0] [5, 5, 5] 10 1⟩).1.getD []).get? 0)
        = some true ∧
      (turnRateOut [0, 1, 2]
          ⟨[0, 0, 0], arrMaskNotPrecise [15, 0, 0] [5, 5, 5] 10 1⟩).2 = none) :=
  ⟨⟨by with_unfolding_all decide, by with_unfolding_all decide,
      Or.inl (by with_unfolding_all decide), by with_unfolding_all decide,
      by with_unfolding_all decide, by with_unfolding_all decide,
      by with_unfolding_all decide⟩,
    gps_mask_amended [15, 0, 0] [5, 5, 5] [0, 0, 0] [0, 1, 2] 10 1 0 15 5
      (by with_unfolding_all decide) (by with_unfolding_all decide)
      (Or.inl (by with_unfolding_all decide)) (by with_unfolding_all decide)
      (by with_unfolding_all decide) (by with_unfolding_all decide)
      (by with_unfolding_all decide)⟩

/-! ## C3: the Orientation constructor's acceptance and fallback -/

/-- Lookup after a Python dict assignment. -/
theorem pyDictSet_lookup {α β : Type} [DecidableEq α] (k : α) (v : β) (q : α) :
    ∀ d : List (α × β),
    (pyDictSet d k v).lookup q = if q = k then some v else d.lookup q := by
  intro d
  induction d with
  | nil =>
    by_cases hqk : q = k
    · simp [pyDictSet, List.lookup, hqk]
    · have hb : (q == k) = false := beq_eq_false_iff_ne.mpr hqk
      simp [pyDictSet, List.lookup, hqk, hb]
  | cons p t ih =>
    obtain ⟨a, c⟩ := p
    by_cases hak : a = k
    · subst hak
      by_cases hqk : q = a
      · have hb : (q == a) = true := beq_iff_eq.mpr hqk
        simp [pyDictSet, List.lookup, hb, hqk]
      · have hb : (q == a) = false := beq_eq_false_iff_ne.mpr hqk
        simp [pyDictSet, List.lookup, hb, hqk]
    · by_cases hqa : q = a
      · have hqk : ¬ q = k := fun h => hak (hqa ▸ h)
        have hb : (q == a) = true := beq_iff_eq.mpr hqa
        simp [pyDictSet, hak, List.lookup, hb, hqk]
      · have hb : (q == a) = false := beq_eq_false_iff_ne.mpr hqa
        simp [pyDictSet, hak, List.lookup, hb, ih]

/-- Every key inserted while building `_dctAxes` stays retrievable. -/
theorem buildAxesGo_lookup_isSome (k : Char) :
    ∀ (cs : List Char) (i : ℕ) (d : List (Char × ℕ)),
    (k ∈ cs.map Char.toLower ∨ (d.lookup k).isSome = true) →
    ((buildAxesGo cs i d).lookup k).isSome = true := by
  intro cs
  induction cs with
  | nil =>
    intro i d h
    rcases h with h | h
    · simp at h
    · exact h
  | cons c t ih =>
    intro i d h
    show ((buildAxesGo t (i + 1) (pyDictSet d (Char.toLower c) i)).lookup k).isSome = true
    apply ih
    by_cases hk : k = Char.toLower c
    · right
      rw [pyDictSet_lookup, if_pos hk]
      rfl
    · rcases h with h | h
      · rcases (by simpa using h :
            k = Char.toLower c ∨ ∃ x ∈ t, Char.toLower x = k) with h1 | ⟨x, hx, hxk⟩
        · exact absurd h1 hk
        · exact Or.inl (List.mem_map.mpr ⟨x, hx, hxk⟩)
      · right
        rw [pyDictSet_lookup, if_neg hk]
        exact h

/-- A character inside the alphabet (case-insensitively) can be looked up
in `_dctAxes` after lowering. -/
theorem buildAxes_lookup_isSome (strAxes : String) (c : Char)
    (h : charInAxes strAxes c = true) :
    ((buildAxes strAxes).lookup (Char.toLower c)).isSome = true := by
  apply buildAxesGo_lookup_isSome
  left
  have hmem : Char.toLower c ∈ lowerChars strAxes := of_decide_eq_true h
  simpa [lowerChars] using hmem

/-- A character of the alphabet itself passes the membership test. -/
theorem charInAxes_of_mem (strAxes : String) (c : Char) (h : c ∈ strAxes.data) :
    charInAxes strAxes c = true := by
  apply decide_eq_true
  exact List.mem_map_of_mem Char.toLower h

/-- The `_dctMap` comprehension succeeds when every orientation character
can be looked up. -/
theorem buildOriPairs_isOk (dctAxes : List (Char × ℕ)) :
    ∀ (cs : List Char) (i : ℕ),
    (∀ c ∈ cs, ((dctAxes.lookup (Char.toLower c)).isSome = true)) →
    ∃ ps, buildOriPairs dctAxes cs i = .ok ps := by
  intro cs
  induction cs with
  | nil => exact fun i _ => ⟨[], rfl⟩
  | cons c t ih =>
    intro i h
    obtain ⟨k, hk⟩ := Option.isSome_iff_exists.mp (h c (List.mem_cons_self c t))
    obtain ⟨ps, hps⟩ := ih (i + 1) (fun x hx => h x (List.mem_cons_of_mem c hx))
    exact ⟨(k, i) :: ps, by simp [buildOriPairs, hk, hps, Except.map]⟩

/-- The `_dctSign` comprehension succeeds under the same condition. -/
theorem buildSignPairs_isOk (dctAxes : List (Char × ℕ)) :
    ∀ (cs : List Char),
    (∀ c ∈ cs, ((dctAxes.lookup (Char.toLower c)).isSome = true)) →
    ∃ ps, buildSignPairs dctAxes cs = .ok ps := by
  intro cs
  induction cs with
  | nil => exact fun _ => ⟨[], rfl⟩
  | cons c t ih =>
    intro h
    obtain ⟨k, hk⟩ := Option.isSome_iff_exists.mp (h c (List.mem_cons_self c t))
    obtain ⟨ps, hps⟩ := ih (fun x hx => h x (List.mem_cons_of_mem c hx))
    exact ⟨(k, if c.isLower then (-1 : ℤ) else 1) :: ps,
      by simp [buildSignPairs, hk, hps, Except.map]⟩

/-- C3 amended: for a default whose characters lie in the alphabet (true of
every call site), the constructor never raises, and its accepted sequence
is characterised as follows: an input of the alphabet's length whose
characters all lie in the alphabet (case-insensitively) is accepted
verbatim - even when it is not a permutation; otherwise the constructor
falls back to the given default exactly when the default has the alphabet's
length and all input characters lie in the alphabet (wrong-length input),
and to the alphabet string itself in every other case (in particular
whenever the input contains a character outside the alphabet). -/
theorem orientation_fallback_amended (strIn strAxes strDefault : String)
    (hdef : allInAxes strDefault strAxes = true) :
    Orientation.init strIn strAxes strDefault true
      = Except.ok (exceptOri (Orientation.init strIn strAxes strDefault true)) ∧
    (exceptOri (Orientation.init strIn strAxes strDefault true)).strOrientation
      = (if strIn.length == strAxes.length && allInAxes strIn strAxes then strIn
         else if strDefault.length == strAxes.length && allInAxes strIn strAxes
           then strDefault else strAxes) := by
  have hsd : (if strDefault.length != strAxes.length || !allInAxes strIn strAxes
        then strAxes else strDefault)
      = (if strDefault.length == strAxes.length && allInAxes strIn strAxes
        then strDefault else strAxes) := by
    cases h1 : strDefault.length == strAxes.length <;>
      cases h2 : allInAxes strIn strAxes <;> simp [bne, h1, h2]
  set strOri : String :=
    (if strIn.length == strAxes.length && allInAxes strIn strAxes then strIn
     else if strDefault.length == strAxes.length && allInAxes strIn strAxes
       then strDefault else strAxes) with hOri
  have hchars : ∀ c ∈ strOri.data, charInAxes strAxes c = true := by
    intro c hc
    rw [hOri] at hc
    by_cases hacc : (strIn.length == strAxes.length && allInAxes strIn strAxes) = true
    · rw [if_pos hacc] at hc
      rw [Bool.and_eq_true] at hacc
      exact List.all_eq_true.mp hacc.2 c hc
    · rw [if_neg hacc] at hc
      by_cases hdk : (strDefault.length == strAxes.length
          && allInAxes strIn strAxes) = true
      · rw [if_pos hdk] at hc
        exact List.all_eq_true.mp hdef c hc
      · rw [if_neg hdk] at hc
        exact charInAxes_of_mem strAxes c hc
  have hlook : ∀ c ∈ strOri.data,
      (((buildAxes strAxes).lookup (Char.toLower c)).isSome = true) :=
    fun c hc => buildAxes_lookup_isSome strAxes c (hchars c hc)
  obtain ⟨mp, hmp⟩ := buildOriPairs_isOk (buildAxes strAxes) strOri.data 0 hlook
  obtain ⟨sp, hsp⟩ := buildSignPairs_isOk (buildAxes strAxes) strOri.data hlook
  have hinit : Orientation.init strIn strAxes strDefault true
      = .ok ⟨strAxes, buildAxes strAxes,
          (if strDefault.length == strAxes.length && allInAxes strIn strAxes
            then strDefault else strAxes),
          strOri, pairsToDict mp, some (pairsToDict sp)⟩ := by
    unfold Orientation.init
    simp only [hsd]
    rw [← hOri]
    rw [hmp, hsp]
    rfl
  rw [hinit]
  exact ⟨rfl, rfl⟩

/-- C3 amended witness: input "abc" over alphabet "xyz" with default "yxz"
(valid default), which is rejected and falls back to the alphabet
string. -/
theorem orientation_fallback_amended_witness :
    allInAxes "yxz" "xyz" = true ∧
    (Orientation.init "abc" "xyz" "yxz" true
        = Except.ok (exceptOri (Orientation.init "abc" "xyz" "yxz" true)) ∧
      (exceptOri (Orientation.init "abc" "xyz" "yxz" true)).strOrientation
        = (if ("abc").length == ("xyz").length && allInAxes "abc" "xyz" then "abc"
           else if ("yxz").length == ("xyz").length && allInAxes "abc" "xyz"
             then "yxz" else "xyz")) :=
  ⟨by decide, orientation_fallback_amended "abc" "xyz" "yxz" (by decide)⟩

/-! ## C9: wrong vector arity in appendTypedListFromString -/

/-- Appending to a channel grows it by one sample. -/
theorem channelLen_dctAppend (key : String) (x : JVal × CVal) :
    ∀ d : Dct, channelLen (dctAppend d key x) key = channelLen d key + 1 := by
  intro d
  induction d with
  | nil => simp [dctAppend, channelLen, List.lookup]
  | cons p t ih =>
    obtain ⟨k, l⟩ := p
    by_cases hk : k = key
    · subst hk
      simp [dctAppend, channelLen, List.lookup]
    · have hb : (key == k) = false := beq_eq_false_iff_ne.mpr (fun h => hk h.symm)
      simp [dctAppend, channelLen, List.lookup, hk, hb] at ih ⊢
      exact ih

/-- The default identity orientation maps a full 3-group to itself (up to
the positive sign factors). -/
theorem mangle_oriXYZ_three (a b c : ℚ) :
    oriXYZ.mangle [a, b, c]
      = .ok [((1 : ℤ) : ℚ) * a, ((1 : ℤ) : ℚ) * b, ((1 : ℤ) : ℚ) * c] := by
  with_unfolding_all rfl

/-- A one-element final group raises IndexError under the identity map. -/
theorem mangle_oriXYZ_one (a : ℚ) : oriXYZ.mangle [a] = .error .indexError := by
  with_unfolding_all rfl

/-- A two-element final group raises IndexError under the identity map. -/
theorem mangle_oriXYZ_two (a b : ℚ) :
    oriXYZ.mangle [a, b] = .error .indexError := by
  with_unfolding_all rfl

/-- Grouping equation for the empty token list. -/
theorem chunkedPos_nil : chunkedPos 2 ([] : List ℚ) = [] := by
  rw [chunkedPos]

/-- Grouping equations for dimension 3. -/
theorem chunkedPos_one (a : ℚ) : chunkedPos 2 [a] = [[a]] := by
  rw [chunkedPos]
  simp [chunkedPos_nil]

/-- Grouping equations for dimension 3 (length 2). -/
theorem chunkedPos_two (a b : ℚ) : chunkedPos 2 [a, b] = [[a, b]] := by
  rw [chunkedPos]
  simp [chunkedPos_nil]

/-- Grouping equations for dimension 3 (a full leading group). -/
theorem chunkedPos_cons3 (a b c : ℚ) (rest : List ℚ) :
    chunkedPos 2 (a :: b :: c :: rest) = [a, b, c] :: chunkedPos 2 rest := by
  rw [chunkedPos]
  simp

/-- The sample loop on a token list whose length is not a multiple of 3:
the complete leading groups are appended, then the short final group
raises IndexError. -/
theorem runChunks_wrong_arity (key : String) :
    ∀ (n : ℕ) (l : List ℚ), l.length ≤ n → l ≠ [] → l.length % 3 ≠ 0 →
    ∀ (t dt : ℚ) (dct : Dct),
    (runChunks oriXYZ key (chunkedPos 2 l) (.num t) dt dct).2
      = some PyErr.indexError ∧
    channelLen (runChunks oriXYZ key (chunkedPos 2 l) (.num t) dt dct).1 key
      = channelLen dct key + l.length / 3 := by
  intro n
  induction n with
  | zero =>
    intro l hl hne _
    cases l with
    | nil => exact absurd rfl hne
    | cons a t0 => simp at hl
  | succ n ih =>
    intro l hl hne hmod t dt dct
    match l with
    | [] => exact absurd rfl hne
    | [a] =>
      rw [chunkedPos_one]
      simp [runChunks, mangle_oriXYZ_one]
    | [a, b] =>
      rw [chunkedPos_two]
      simp [runChunks, mangle_oriXYZ_two]
    | a :: b :: c :: rest =>
      rw [chunkedPos_cons3]
      have hr1 : rest ≠ [] := by
        intro h
        subst h
        simp at hmod
      have hr2 : rest.length % 3 ≠ 0 := by
        have : (a :: b :: c :: rest).length = rest.length + 3 := by simp
        rw [this, Nat.add_mod_right] at hmod
        exact hmod
      have hlen : rest.length ≤ n := by
        simp only [List.length_cons] at hl
        omega
      have hstep : runChunks oriXYZ key ([a, b, c] :: chunkedPos 2 rest)
            (.num t) dt dct
          = runChunks oriXYZ key (chunkedPos 2 rest) (.num (t + dt)) dt
              (dctAppend dct key
                (.num t, .vec [((1 : ℤ) : ℚ) * a, ((1 : ℤ) : ℚ) * b, ((1 : ℤ) : ℚ) * c])) := by
        rw [runChunks, mangle_oriXYZ_three]
        rfl
      rw [hstep]
      obtain ⟨ih1, ih2⟩ := ih rest hlen hr1 hr2 (t + dt) dt
        (dctAppend dct key
          (.num t, .vec [((1 : ℤ) : ℚ) * a, ((1 : ℤ) : ℚ) * b, ((1 : ℤ) : ℚ) * c]))
      refine ⟨ih1, ?_⟩
      rw [ih2, channelLen_dctAppend]
      have hlc : (a :: b :: c :: rest).length = rest.length + 3 := by simp
      rw [hlc, Nat.add_div_right _ (by norm_num)]
      omega

/-- C9 amended: bad numeric tokens are indeed recoverable (zero samples, no
exception, covered by C10's graceful path), but a token count that is not a
multiple of the declared dimensionality is not: under the default identity
orientation the code appends the `len / 3` complete leading vectors and the
short final group then raises an `IndexError` from `mangle`, which
propagates out of the collection call. -/
theorem append_wrong_arity_amended (strIn : JVal) (l : List ℚ) (t q : ℚ)
    (dct : Dct) (key : String)
    (hp : (pySplitWS (pyStrOfJVal strIn)).mapM pyFloat = some l)
    (hne : l ≠ []) (hmod : l.length % 3 ≠ 0) :
    (appendTypedListFromString strIn pyFloat 3 oriXYZ (.num t) (.num q) dct key).2
      = some PyErr.indexError ∧
    channelLen (appendTypedListFromString strIn pyFloat 3 oriXYZ (.num t)
        (.num q) dct key).1 key
      = channelLen dct key + l.length / 3 := by
  unfold appendTypedListFromString
  have hl0 : ¬ l.length = 0 := fun h => hne (List.length_eq_zero.mp h)
  simp only [hp, if_neg hl0]
  exact runChunks_wrong_arity key l.length l le_rfl hne hmod t _ dct

/-- C9 amended witness: the payload "1 2 3 4" (four tokens, dimension 3)
appends one sample and raises IndexError. -/
theorem append_wrong_arity_amended_witness :
    ((pySplitWS (pyStrOfJVal (JVal.str "1 2 3 4"))).mapM pyFloat
        = some [1, 2, 3, 4] ∧
      ([1, 2, 3, 4] : List ℚ) ≠ [] ∧
      ([1, 2, 3, 4] : List ℚ).length % 3 ≠ 0) ∧
    ((appendTypedListFromString (.str "1 2 3 4") pyFloat 3 oriXYZ (.num 0)
        (.num 1) [] "Acceleration").2 = some PyErr.indexError ∧
      channelLen (appendTypedListFromString (.str "1 2 3 4") pyFloat 3 oriXYZ
          (.num 0) (.num 1) [] "Acceleration").1 "Acceleration"
        = channelLen ([] : Dct) "Acceleration"
            + ([1, 2, 3, 4] : List ℚ).length / 3) :=
  ⟨⟨by with_unfolding_all decide, by with_unfolding_all decide,
      by with_unfolding_all decide⟩,
    append_wrong_arity_amended (.str "1 2 3 4") [1, 2, 3, 4] 0 1 [] "Acceleration"
      (by with_unfolding_all decide) (by with_unfolding_all decide)
      (by with_unfolding_all decide)⟩

end GoPro
